/-
Verification of the master-table assembly and filtering pipeline of the
Startup Momentum Dashboard (src/Dashboard/app.py).

The pandas DataFrames are embedded as lists of typed rows.  The data model
fixes `company_id` as unique per table; under that assumption a pandas left
merge on `company_id` is, row by row, a lookup of the (unique) matching row
in the right table, which is how `buildMasterRow` embeds the merges of
`prepare_master_table`.  A missing value (NaN/None) is `Option.none`.
-/
import Mathlib

namespace LaunchpadScout

/-! ## String utilities

Generic substring search over character lists, used both for the `"/_"`
test of the S3 readers and for the substring reading of the search filter. -/

/-- `isPrefixBy eq needle hay`: `needle` matches the front of `hay`,
comparing characters with `eq`. -/
def isPrefixBy (eq : Char → Char → Bool) : List Char → List Char → Bool
  | [], _ => true
  | _ :: _, [] => false
  | a :: as, b :: bs => eq a b && isPrefixBy eq as bs

/-- `hasSubBy eq needle hay`: `needle` matches at some position of `hay`. -/
def hasSubBy (eq : Char → Char → Bool) (needle : List Char) : List Char → Bool
  | [] => isPrefixBy eq needle []
  | b :: t => isPrefixBy eq needle (b :: t) || hasSubBy eq needle t

/-- Case-sensitive substring containment on strings (Python `"x" in s`). -/
def strContainsSub (hay needle : String) : Bool :=
  hasSubBy (fun a b => a == b) needle.toList hay.toList

/-- `s.endswith(ext)` of Python. -/
def strEndsWith (s ext : String) : Bool :=
  isPrefixBy (fun a b => a == b) ext.toList.reverse s.toList.reverse

/-- Case-insensitive substring containment (ASCII case folding via
`Char.toLower`): the plain reading of a case-insensitive "contains". -/
def substrCI (needle hay : String) : Bool :=
  hasSubBy (fun a b => a.toLower == b.toLower) needle.toList hay.toList

/-! ## Model of `Series.str.contains(pat, case=False, na=False)`

pandas compiles `pat` as a regular expression (default `regex=True`) with
`re.IGNORECASE` and keeps the rows where `re.search` finds a match; a null
element yields `False` (`na=False`).  The regex fragment modelled here is the
one exercised by the theorems: patterns made of literal characters and the
`.` wildcard.  Patterns containing other regex metacharacters are outside the
model and no theorem below touches them. -/

/-- `re.search` anchored at the start of `s`, for a literal-and-dot pattern
`p`, ignoring case. -/
def reMatchAt : List Char → List Char → Bool
  | [], _ => true
  | _ :: _, [] => false
  | c :: p, x :: s => (c == '.' || c.toLower == x.toLower) && reMatchAt p s

/-- `re.search`: try every start position. -/
def reSearch (p : List Char) : List Char → Bool
  | [] => reMatchAt p []
  | b :: t => reMatchAt p (b :: t) || reSearch p t

/-- `Series.str.contains(pattern, case=False)` on one non-null element. -/
def pyStrContainsCI (pattern text : String) : Bool :=
  reSearch pattern.toList text.toList

/-- Python regular-expression metacharacters.  A pattern free of these is a
literal pattern, for which `re.search` is substring containment. -/
def regexMetaChars : List Char :=
  ['.', '^', '$', '*', '+', '?', '\x7b', '\x7d', '[', ']', '\\', '|', '(', ')']

/-! ## Model of Python float formatting used by `format_usd`

`f"{q:.1f}"`, `f"{q:.0f}"` and `f"{q:,.0f}"` round to the requested number
of decimals with round-half-to-even and, for the `,` form, group the integer
digits in threes.  The model works on exact rationals; at every input used by
the theorems the rational value is exactly the Python float, so the rounding
agrees. -/

/-- Round to the nearest integer, ties to even (Python's float formatting
rounding on exact values). -/
def roundHalfEven (q : ℚ) : ℤ :=
  let f := ⌊q⌋
  let r := q - f
  if r < 1 / 2 then f
  else if 1 / 2 < r then f + 1
  else if f % 2 = 0 then f else f + 1

/-- Insert a comma after every group of three characters (input is the
reversed digit list). -/
def group3 : List Char → List Char
  | a :: b :: c :: d :: rest => a :: b :: c :: ',' :: group3 (d :: rest)
  | l => l

/-- Comma-grouped decimal rendering of a natural number (Python `{:,}`). -/
def commaGroup (n : ℕ) : String :=
  String.mk ((group3 (toString n).toList.reverse).reverse)

/-- Python `f"{q:.1f}"`: one decimal digit, round half to even. -/
def pyFmt1 (q : ℚ) : String :=
  (if q < 0 then "-" else "") ++
    (let n := (roundHalfEven (|q| * 10)).toNat
     toString (n / 10) ++ "." ++ toString (n % 10))

/-- Python `f"{q:.0f}"`: round half to even to an integer. -/
def pyFmt0 (q : ℚ) : String :=
  (if q < 0 then "-" else "") ++ toString (roundHalfEven |q|).toNat

/-- Python `f"{q:,.0f}"`: round half to even to an integer, comma-grouped. -/
def pyFmtComma0 (q : ℚ) : String :=
  (if q < 0 then "-" else "") ++ commaGroup (roundHalfEven |q|).toNat

/-- `format_usd` (app.py lines 229-236).  The argument is the cell value of
`total_funding_usd`: `none` is NaN/None (`pd.isna`). -/
def format_usd : Option ℚ → String
  | none => "N/A"
  | some value =>
    if 1000000 ≤ value then "$" ++ pyFmt1 (value / 1000000) ++ "M"
    else if 1000 ≤ value then "$" ++ pyFmt0 (value / 1000) ++ "K"
    else "$" ++ pyFmtComma0 value

/-! ## Constants (app.py lines 104-125)

Python dicts preserve insertion order, so they are embedded as association
lists in declaration order. -/

/-- `FUNDING_STAGE_LABELS` (app.py lines 104-110): stage code to label. -/
def FUNDING_STAGE_LABELS : List (ℚ × String) :=
  [(0, "Pre-Seed / Angel"), (1, "Seed"), (2, "Series A"),
   (3, "Series B"), (4, "Post-IPO")]

/-- `INDUSTRY_MAP` (app.py lines 112-125): indicator column to industry
label, in the fixed scan order of `derive_primary_industry`. -/
def INDUSTRY_MAP : List (String × String) :=
  [("ind_ai", "AI"), ("ind_software", "Software"), ("ind_it", "IT"),
   ("ind_saas", "SaaS"), ("ind_healthcare", "Healthcare"),
   ("ind_fintech", "FinTech"), ("ind_financial", "Financial Services"),
   ("ind_ml", "Machine Learning"), ("ind_manufacturing", "Manufacturing"),
   ("ind_biotech", "Biotech"), ("ind_genai", "Generative AI"),
   ("ind_devtools", "Developer Tools")]

/-- The twelve declared industry labels (the values of `INDUSTRY_MAP`). -/
def industryLabels : List String := INDUSTRY_MAP.map (fun p => p.2)

/-- The five declared funding-stage labels. -/
def stageLabels : List String := FUNDING_STAGE_LABELS.map (fun p => p.2)

/-! ## Data model

One typed row per source table.  Fields whose cells may be NaN/None are
`Option`s.  The Hiring and Scores tables are selected by fixed column lists
in `prepare_master_table` (app.py lines 241-244, 268), so those columns are
part of the schema here; the Spine table is selected by column intersection
(lines 246-254), so presence of its optional columns is explicit.  Of the
seventeen optional Spine columns only `name` and `total_funding_usd` are ever
read again after the merge (lines 263-265 and 287); the rest are carried
through unchanged and never inspected, so the embedding records presence
flags for those two and omits the purely pass-through columns. -/

structure HiringRow where
  company_id : String
  name : Option String
  hiring_score : Option ℚ
  hiring_tier : Option String
  hiring_rank : Option ℚ
  deriving DecidableEq

structure ScoresRow where
  company_id : String
  momentum_score : Option ℚ
  momentum_tier : Option String
  momentum_rank : Option ℚ
  funding_stage : Option ℚ
  deriving DecidableEq

structure SpineRow where
  company_id : String
  name : Option String
  total_funding_usd : Option ℚ
  deriving DecidableEq

/-- The Spine table with presence flags for the two optional columns that
`prepare_master_table` reads after its defensive column intersection. -/
structure SpineTable where
  hasName : Bool
  hasTotalFunding : Bool
  rows : List SpineRow
  deriving DecidableEq

/-- A Features row: `indVals` is the association list of the table's
`ind_`-prefixed columns with this row's values (a column absent from the
table, or a NaN cell, is absent from the list — `row.get(col, 0)` returns
the default and `NaN == 1` is false, so both behave identically in
`derive_primary_industry`, the only consumer). -/
structure FeatRow where
  company_id : String
  indVals : List (String × ℚ)
  has_job_postings : Option Bool
  deriving DecidableEq

/-- The Features table with a presence flag for `has_job_postings`
(app.py line 280 guards on it). -/
structure FeaturesTable where
  hasJobPostings : Bool
  rows : List FeatRow
  deriving DecidableEq

/-- The bundle returned by `load_all_data`.  The `metadata` table is only
used by the detail view, never by the assembly or filtering pipeline, and is
omitted. -/
structure Bundle where
  scores : List ScoresRow
  hiring : List HiringRow
  features : FeaturesTable
  spine : SpineTable
  deriving DecidableEq

/-- A master-table row.  `funding_stage_label` and `total_funding_display`
are total strings because the code materialises them with `.fillna` and
`format_usd` respectively. -/
structure MasterRow where
  company_id : String
  name : Option String
  hiring_score : Option ℚ
  hiring_tier : Option String
  hiring_rank : Option ℚ
  momentum_score : Option ℚ
  momentum_tier : Option String
  momentum_rank : Option ℚ
  funding_stage : Option ℚ
  funding_stage_label : String
  total_funding_usd : Option ℚ
  total_funding_display : String
  primary_industry : Option String
  has_job_postings : Option Bool
  deriving DecidableEq

/-! ## Table assembly (app.py lines 221-292) -/

/-- `derive_primary_industry` (app.py lines 221-226): scan `INDUSTRY_MAP` in
order; first column whose value equals 1 wins, else "Other". -/
def firstIndustryLabel : List (String × String) → List (String × ℚ) → String
  | [], _ => "Other"
  | (col, label) :: rest, vals =>
    if (vals.lookup col).getD 0 == 1 then label else firstIndustryLabel rest vals

def derive_primary_industry (vals : List (String × ℚ)) : String :=
  firstIndustryLabel INDUSTRY_MAP vals

/-- `df["funding_stage"].map(FUNDING_STAGE_LABELS).fillna("Unknown")`
(app.py line 271) on one cell: NaN or an unmapped code becomes "Unknown". -/
def mapStageLabel (v : Option ℚ) : String :=
  match v with
  | none => "Unknown"
  | some c => (FUNDING_STAGE_LABELS.lookup c).getD "Unknown"

/-- One master row per Hiring row: the left merges of app.py lines 259-284
become lookups of the unique matching row of each right table, and the
derived columns of lines 263-287 are computed in place. -/
def buildMasterRow (data : Bundle) (h : HiringRow) : MasterRow :=
  let s? := data.scores.find? (fun s => s.company_id == h.company_id)
  let sp? := data.spine.rows.find? (fun s => s.company_id == h.company_id)
  let f? := data.features.rows.find? (fun f => f.company_id == h.company_id)
  let name :=
    if data.spine.hasName then
      match h.name with
      | some n => some n
      | none => sp?.bind (fun s => s.name)
    else h.name
  let tf := if data.spine.hasTotalFunding
            then sp?.bind (fun s => s.total_funding_usd) else none
  let stage := s?.bind (fun s => s.funding_stage)
  { company_id := h.company_id
    name := name
    hiring_score := h.hiring_score
    hiring_tier := h.hiring_tier
    hiring_rank := h.hiring_rank
    momentum_score := s?.bind (fun s => s.momentum_score)
    momentum_tier := s?.bind (fun s => s.momentum_tier)
    momentum_rank := s?.bind (fun s => s.momentum_rank)
    funding_stage := stage
    funding_stage_label := mapStageLabel stage
    total_funding_usd := tf
    total_funding_display := format_usd tf
    primary_industry := f?.map (fun f => derive_primary_industry f.indVals)
    has_job_postings := if data.features.hasJobPostings
                        then f?.bind (fun f => f.has_job_postings) else none }

/-- Sort key of `df.sort_values("hiring_rank")`: ascending rank, NaN last
(pandas default `na_position="last"`). -/
def rankLE (a b : MasterRow) : Bool :=
  match a.hiring_rank, b.hiring_rank with
  | some x, some y => decide (x ≤ y)
  | some _, none => true
  | none, some _ => false
  | none, none => true

def insertByRank (r : MasterRow) : List MasterRow → List MasterRow
  | [] => [r]
  | x :: xs => if rankLE r x then r :: x :: xs else x :: insertByRank r xs

/-- `df.sort_values("hiring_rank")` (app.py line 290).  pandas' default sort
is an unstable quicksort, so the order among equal ranks is unspecified;
this insertion sort is one refinement of it. -/
def sortByHiringRank : List MasterRow → List MasterRow
  | [] => []
  | x :: xs => insertByRank x (sortByHiringRank xs)

/-- `prepare_master_table` (app.py lines 239-292).  If the Spine table lacks
`total_funding_usd`, the column intersection of lines 246-254 drops it from
the merge and line 287 (`df["total_funding_usd"]`) raises a `KeyError`;
otherwise the merged, derived and sorted table is returned. -/
def prepare_master_table (data : Bundle) : Except String (List MasterRow) :=
  let merged := data.hiring.map (buildMasterRow data)
  if data.spine.hasTotalFunding then
    Except.ok (sortByHiringRank merged)
  else
    Except.error "KeyError: total_funding_usd"

/-! ## Remote Reader key resolution (app.py lines 155-198) -/

/-- The shared resolution rule of `read_csv_from_s3` and
`read_parquet_from_s3`: among the listed keys under the prefix, keep those
ending in the expected extension whose path has no `"/_"` segment
(sentinel/control files); take the first if any, else fall back to the key
itself. -/
def resolve_data_key (ext key : String) (listing : List String) : String :=
  let files := listing.filter (fun k => strEndsWith k ext && !(strContainsSub k "/_"))
  match files with
  | f :: _ => f
  | [] => key

/-- Key resolution of `read_csv_from_s3` (app.py lines 156-176). -/
def csv_target_key (key : String) (listing : List String) : String :=
  resolve_data_key ".csv" key listing

/-- Key resolution of `read_parquet_from_s3` (app.py lines 183-196). -/
def parquet_target_key (key : String) (listing : List String) : String :=
  resolve_data_key ".parquet" key listing

/-! ## Filter Engine (app.py lines 298-325) -/

/-- `filtered["hiring_score"] >= min_score` on one row: a NaN score compares
false and the row is dropped. -/
def scoreKeep (min_score : ℤ) (r : MasterRow) : Bool :=
  match r.hiring_score with
  | some s => decide ((min_score : ℚ) ≤ s)
  | none => false

/-- `filtered["momentum_tier"].isin(tiers)` on one row: a NaN tier is not a
member of a list of strings. -/
def tierKeep (tiers : List String) (r : MasterRow) : Bool :=
  match r.momentum_tier with
  | some t => tiers.contains t
  | none => false

/-- `filtered["primary_industry"].isin(industries)` on one row. -/
def industryKeep (industries : List String) (r : MasterRow) : Bool :=
  match r.primary_industry with
  | some i => industries.contains i
  | none => false

/-- `filtered["funding_stage_label"].isin(stages)` on one row (the label is
always a string, never NaN). -/
def stageKeep (stages : List String) (r : MasterRow) : Bool :=
  stages.contains r.funding_stage_label

/-- `filtered["name"].str.contains(search, case=False, na=False)` on one
row. -/
def searchKeep (search : String) (r : MasterRow) : Bool :=
  match r.name with
  | some n => pyStrContainsCI search n
  | none => false

/-- `apply_filters` (app.py lines 298-325): each criterion is skipped when
empty/zero and otherwise applied as a filter, in source order. -/
def apply_filters (df : List MasterRow) (min_score : ℤ)
    (tiers industries stages : List String) (search : String) :
    List MasterRow :=
  let f1 := if 0 < min_score then df.filter (scoreKeep min_score) else df
  let f2 := if tiers.isEmpty then f1 else f1.filter (tierKeep tiers)
  let f3 := if industries.isEmpty then f2 else f2.filter (industryKeep industries)
  let f4 := if stages.isEmpty then f3 else f3.filter (stageKeep stages)
  let f5 := if search.isEmpty then f4 else f4.filter (searchKeep search)
  f5

/-! ## Concrete example data -/

def exH1 : HiringRow :=
  { company_id := "c1", name := some "Acme Corp", hiring_score := some 72,
    hiring_tier := some "High", hiring_rank := some 1 }

def exH2 : HiringRow :=
  { company_id := "c2", name := some "Borealis", hiring_score := some 55,
    hiring_tier := some "Moderate", hiring_rank := some 2 }

/-- A small bundle: company `c2` is in Hiring but absent from Scores, Spine
and Features; all Spine columns present. -/
def exBundle : Bundle :=
  { scores := [{ company_id := "c1", momentum_score := some (9/10),
                 momentum_tier := some "Very High", momentum_rank := some 1,
                 funding_stage := some 2 }]
    hiring := [exH1, exH2]
    features := { hasJobPostings := true,
                  rows := [{ company_id := "c1", indVals := [("ind_ai", 1)],
                             has_job_postings := some true }] }
    spine := { hasName := true, hasTotalFunding := true,
               rows := [{ company_id := "c1", name := some "Acme",
                          total_funding_usd := some 2300000 }] } }

def exMaster : List MasterRow :=
  [buildMasterRow exBundle exH1, buildMasterRow exBundle exH2]

theorem prepare_exBundle : prepare_master_table exBundle = Except.ok exMaster := by
  rfl

/-! ## Helper lemmas -/

theorem mem_of_mem_condFilter {α : Type} {c : Prop} [Decidable c]
    {l : List α} {p : α → Bool} {x : α}
    (hx : x ∈ (if c then l else l.filter p)) : x ∈ l := by
  split at hx
  · exact hx
  · exact (List.mem_filter.mp hx).1

theorem mem_insertByRank {r x : MasterRow} {l : List MasterRow} :
    x ∈ insertByRank r l ↔ x = r ∨ x ∈ l := by
  induction l with
  | nil => simp [insertByRank]
  | cons a t ih =>
    simp only [insertByRank]
    split
    · simp
    · simp [ih]
      tauto

theorem mem_sortByHiringRank {x : MasterRow} {l : List MasterRow} :
    x ∈ sortByHiringRank l ↔ x ∈ l := by
  induction l with
  | nil => simp [sortByHiringRank]
  | cons a t ih => simp [sortByHiringRank, mem_insertByRank, ih]

theorem length_insertByRank (r : MasterRow) (l : List MasterRow) :
    (insertByRank r l).length = l.length + 1 := by
  induction l with
  | nil => simp [insertByRank]
  | cons a t ih =>
    simp only [insertByRank]
    split
    · simp
    · simp [ih]

theorem length_sortByHiringRank (l : List MasterRow) :
    (sortByHiringRank l).length = l.length := by
  induction l with
  | nil => simp [sortByHiringRank]
  | cons a t ih => simp [sortByHiringRank, length_insertByRank, ih]

/-- `prepare_master_table` succeeds exactly when the Spine table has the
`total_funding_usd` column, and then returns the sorted built rows. -/
theorem prepare_ok_iff {data : Bundle} {m : List MasterRow} :
    prepare_master_table data = Except.ok m ↔
      data.spine.hasTotalFunding = true ∧
        m = sortByHiringRank (data.hiring.map (buildMasterRow data)) := by
  cases hft : data.spine.hasTotalFunding with
  | false =>
    simp only [prepare_master_table, hft, Bool.false_eq_true, if_false]
    simp
  | true =>
    simp only [prepare_master_table, hft, if_true]
    constructor
    · intro h
      exact ⟨by trivial, (Except.ok.inj h).symm⟩
    · rintro ⟨-, rfl⟩
      rfl

theorem mem_of_prepare {data : Bundle} {m : List MasterRow}
    (hok : prepare_master_table data = Except.ok m) {r : MasterRow} :
    r ∈ m ↔ ∃ h ∈ data.hiring, buildMasterRow data h = r := by
  obtain ⟨-, rfl⟩ := prepare_ok_iff.mp hok
  simp [mem_sortByHiringRank, List.mem_map]

theorem scoreKeep_iff {n : ℤ} {r : MasterRow} :
    scoreKeep n r = true ↔ ∃ s, r.hiring_score = some s ∧ (n : ℚ) ≤ s := by
  cases hs : r.hiring_score <;> simp [scoreKeep, hs]

theorem tierKeep_iff {tiers : List String} {r : MasterRow} :
    tierKeep tiers r = true ↔ ∃ t, r.momentum_tier = some t ∧ t ∈ tiers := by
  cases ht : r.momentum_tier <;> simp [tierKeep, ht, List.contains]

theorem applyFilters_score_only (df : List MasterRow) {ms : ℤ} (hms : 0 < ms) :
    apply_filters df ms [] [] [] "" = df.filter (scoreKeep ms) := by
  have hemp : "".isEmpty = true := rfl
  simp [apply_filters, hms, hemp]

theorem applyFilters_score_tiers (df : List MasterRow) {ms : ℤ}
    {tiers : List String} (hms : 0 < ms) (ht : tiers ≠ []) :
    apply_filters df ms tiers [] [] "" =
      (df.filter (scoreKeep ms)).filter (tierKeep tiers) := by
  have hemp : "".isEmpty = true := rfl
  obtain ⟨t0, ts, rfl⟩ := List.exists_cons_of_ne_nil ht
  simp [apply_filters, hms, hemp]

/-- Any row surviving `apply_filters` with a non-empty tier selection passed
the momentum-tier membership test. -/
theorem tierKeep_of_mem_apply_filters {df : List MasterRow} {ms : ℤ}
    {tiers inds stgs : List String} {srch : String} {r : MasterRow}
    (ht : tiers ≠ [])
    (hr : r ∈ apply_filters df ms tiers inds stgs srch) :
    tierKeep tiers r = true := by
  obtain ⟨t0, ts, rfl⟩ := List.exists_cons_of_ne_nil ht
  unfold apply_filters at hr
  have h2 := mem_of_mem_condFilter (mem_of_mem_condFilter (mem_of_mem_condFilter hr))
  simp only [List.isEmpty_cons, Bool.false_eq_true, if_false] at h2
  exact (List.mem_filter.mp h2).2

/-! ## Range of the derived label columns -/

theorem firstIndustryLabel_mem (mp : List (String × String))
    (vals : List (String × ℚ)) :
    firstIndustryLabel mp vals ∈ mp.map (fun p => p.2) ∨
      firstIndustryLabel mp vals = "Other" := by
  induction mp with
  | nil => right; rfl
  | cons p rest ih =>
    obtain ⟨col, label⟩ := p
    simp only [firstIndustryLabel]
    split
    · left
      simp
    · rcases ih with h | h
      · left
        simp only [List.map_cons, List.mem_cons]
        right
        exact h
      · right
        exact h

theorem derive_primary_industry_mem (vals : List (String × ℚ)) :
    derive_primary_industry vals ∈ industryLabels ∨
      derive_primary_industry vals = "Other" :=
  firstIndustryLabel_mem INDUSTRY_MAP vals

theorem lookup_getD_mem (l : List (ℚ × String)) (c : ℚ) (d : String) :
    (l.lookup c).getD d = d ∨ (l.lookup c).getD d ∈ l.map (fun p => p.2) := by
  induction l with
  | nil => left; rfl
  | cons p rest ih =>
    obtain ⟨k, b⟩ := p
    simp only [List.lookup]
    cases hck : c == k with
    | true =>
      right
      simp
    | false =>
      rcases ih with h | h
      · left
        exact h
      · right
        simp only [List.map_cons, List.mem_cons]
        right
        exact h

theorem mapStageLabel_mem (v : Option ℚ) :
    mapStageLabel v ∈ stageLabels ∨ mapStageLabel v = "Unknown" := by
  cases v with
  | none => right; rfl
  | some c =>
    rcases lookup_getD_mem FUNDING_STAGE_LABELS c "Unknown" with h | h
    · right
      exact h
    · left
      exact h

/-! ## Claims about the assembled master table -/

/-- C1: every row of the Hiring table appears as a row of the master table
produced by `prepare_master_table` (keyed by its `company_id`); a company
absent from Scores gets null momentum fields and a null stage code (its
label defaulting to "Unknown"), a company absent from Spine gets a null
`total_funding_usd` (displayed as "N/A"), and a company absent from
Features gets a null `primary_industry` and `has_job_postings`. -/
theorem c1_hiring_rows_kept (data : Bundle) (m : List MasterRow)
    (hok : prepare_master_table data = Except.ok m)
    (h : HiringRow) (hmem : h ∈ data.hiring) :
    ∃ r ∈ m, r.company_id = h.company_id ∧
      ((∀ s ∈ data.scores, s.company_id ≠ h.company_id) →
        r.momentum_score = none ∧ r.momentum_tier = none ∧
          r.momentum_rank = none ∧ r.funding_stage = none ∧
          r.funding_stage_label = "Unknown") ∧
      ((∀ s ∈ data.spine.rows, s.company_id ≠ h.company_id) →
        r.total_funding_usd = none ∧ r.total_funding_display = "N/A") ∧
      ((∀ f ∈ data.features.rows, f.company_id ≠ h.company_id) →
        r.primary_industry = none ∧ r.has_job_postings = none) := by
  refine ⟨buildMasterRow data h, (mem_of_prepare hok).mpr ⟨h, hmem, rfl⟩,
    rfl, ?_, ?_, ?_⟩
  · intro hs
    have hfind :
        data.scores.find? (fun s => s.company_id == h.company_id) = none := by
      rw [List.find?_eq_none]
      intro s hsm
      simp only [beq_iff_eq]
      exact hs s hsm
    simp [buildMasterRow, hfind, mapStageLabel]
  · intro hsp
    have hfind :
        data.spine.rows.find? (fun s => s.company_id == h.company_id) = none := by
      rw [List.find?_eq_none]
      intro s hsm
      simp only [beq_iff_eq]
      exact hsp s hsm
    constructor
    · simp [buildMasterRow, hfind]
    · simp [buildMasterRow, hfind, format_usd]
  · intro hf
    have hfind :
        data.features.rows.find? (fun f => f.company_id == h.company_id) = none := by
      rw [List.find?_eq_none]
      intro s hsm
      simp only [beq_iff_eq]
      exact hf s hsm
    constructor
    · simp [buildMasterRow, hfind]
    · simp [buildMasterRow, hfind]

theorem c1_hiring_rows_kept_witness :
    prepare_master_table exBundle = Except.ok exMaster ∧
    exH2 ∈ exBundle.hiring ∧
    ∃ r ∈ exMaster, r.company_id = exH2.company_id ∧
      ((∀ s ∈ exBundle.scores, s.company_id ≠ exH2.company_id) →
        r.momentum_score = none ∧ r.momentum_tier = none ∧
          r.momentum_rank = none ∧ r.funding_stage = none ∧
          r.funding_stage_label = "Unknown") ∧
      ((∀ s ∈ exBundle.spine.rows, s.company_id ≠ exH2.company_id) →
        r.total_funding_usd = none ∧ r.total_funding_display = "N/A") ∧
      ((∀ f ∈ exBundle.features.rows, f.company_id ≠ exH2.company_id) →
        r.primary_industry = none ∧ r.has_job_postings = none) :=
  ⟨rfl, by decide, c1_hiring_rows_kept exBundle exMaster rfl exH2 (by decide)⟩

def soloHiring : HiringRow :=
  { company_id := "c9", name := some "Nimbus", hiring_score := some 61,
    hiring_tier := some "Moderate", hiring_rank := some 7 }

/-- A bundle whose Features table has no row for the one Hiring company
(all Spine columns present, so assembly succeeds). -/
def c2Bundle : Bundle :=
  { scores := [], hiring := [soloHiring],
    features := { hasJobPostings := false, rows := [] },
    spine := { hasName := true, hasTotalFunding := true, rows := [] } }

/-- C2 counterexample: a company present in Hiring but absent from the
Features table gets a null `primary_industry` from the left join (app.py
line 277), so the field is not always one of the labels or "Other".  (The
code itself expects this: line 622 calls `.dropna()` on the column.) -/
theorem c2_counterexample :
    prepare_master_table c2Bundle =
      Except.ok [buildMasterRow c2Bundle soloHiring] ∧
    (buildMasterRow c2Bundle soloHiring).primary_industry = none :=
  ⟨rfl, rfl⟩

/-- C2 (amended): for every master row whose company appears in the
Features table, `primary_industry` is one of the twelve declared industry
labels or "Other"; for a company absent from Features the left join leaves
it null. -/
theorem c2_primary_industry (data : Bundle) (m : List MasterRow)
    (hok : prepare_master_table data = Except.ok m) :
    ∀ r ∈ m,
      ((∃ f ∈ data.features.rows, f.company_id = r.company_id) →
        ∃ l, r.primary_industry = some l ∧
          (l ∈ industryLabels ∨ l = "Other")) ∧
      ((∀ f ∈ data.features.rows, f.company_id ≠ r.company_id) →
        r.primary_industry = none) := by
  intro r hrm
  obtain ⟨h, hh, rfl⟩ := (mem_of_prepare hok).mp hrm
  constructor
  · rintro ⟨f, hf, hfid⟩
    have hsome :
        (data.features.rows.find? (fun f => f.company_id == h.company_id)).isSome := by
      rw [List.find?_isSome]
      exact ⟨f, hf, by simp only [beq_iff_eq]; exact hfid⟩
    obtain ⟨f0, hf0⟩ := Option.isSome_iff_exists.mp hsome
    refine ⟨derive_primary_industry f0.indVals, ?_, derive_primary_industry_mem f0.indVals⟩
    simp [buildMasterRow, hf0]
  · intro hne
    have hfind :
        data.features.rows.find? (fun f => f.company_id == h.company_id) = none := by
      rw [List.find?_eq_none]
      intro s hsm
      simp only [beq_iff_eq]
      exact hne s hsm
    simp [buildMasterRow, hfind]

theorem c2_primary_industry_witness :
    prepare_master_table exBundle = Except.ok exMaster ∧
    ∀ r ∈ exMaster,
      ((∃ f ∈ exBundle.features.rows, f.company_id = r.company_id) →
        ∃ l, r.primary_industry = some l ∧
          (l ∈ industryLabels ∨ l = "Other")) ∧
      ((∀ f ∈ exBundle.features.rows, f.company_id ≠ r.company_id) →
        r.primary_industry = none) :=
  ⟨rfl, c2_primary_industry exBundle exMaster rfl⟩

def c3Bundle : Bundle :=
  { scores := [], hiring := [soloHiring],
    features := { hasJobPostings := false, rows := [] },
    spine := { hasName := false, hasTotalFunding := false, rows := [] } }

/-- C3 counterexample: a bundle whose Spine table lacks the optional
`total_funding_usd` column is not handled by the column intersection alone:
line 287 (`df["total_funding_usd"]`) accesses the column unconditionally
and raises a `KeyError`, so `prepare_master_table` does not return a master
table. -/
theorem c3_counterexample :
    c3Bundle.spine.hasTotalFunding = false ∧
    prepare_master_table c3Bundle =
      Except.error "KeyError: total_funding_usd" :=
  ⟨rfl, rfl⟩

/-- C3 (amended): missing optional Spine columns are skipped via column
intersection and assembly succeeds — except `total_funding_usd`: when the
Spine table lacks it, the unconditional access at line 287 raises a
`KeyError` and no master table is produced. -/
theorem c3_spine_column_intersection (data : Bundle) :
    (data.spine.hasTotalFunding = true →
      ∃ m, prepare_master_table data = Except.ok m ∧
        m.length = data.hiring.length) ∧
    (data.spine.hasTotalFunding = false →
      prepare_master_table data = Except.error "KeyError: total_funding_usd") := by
  constructor
  · intro hft
    refine ⟨sortByHiringRank (data.hiring.map (buildMasterRow data)),
      prepare_ok_iff.mpr ⟨hft, rfl⟩, ?_⟩
    rw [length_sortByHiringRank, List.length_map]
  · intro hft
    simp only [prepare_master_table, hft, Bool.false_eq_true, if_false]

theorem c3_spine_column_intersection_witness :
    (exBundle.spine.hasTotalFunding = true ∧
      ∃ m, prepare_master_table exBundle = Except.ok m ∧
        m.length = exBundle.hiring.length) ∧
    (c3Bundle.spine.hasTotalFunding = false ∧
      prepare_master_table c3Bundle =
        Except.error "KeyError: total_funding_usd") :=
  ⟨⟨rfl, (c3_spine_column_intersection exBundle).1 rfl⟩,
    ⟨rfl, (c3_spine_column_intersection c3Bundle).2 rfl⟩⟩

/-- C8: `funding_stage_label` is always one of the five declared stage
labels or "Unknown" — for every bundle and every master row, including
out-of-range and missing stage codes.  It is never null: the embedding
types the column as a total `String` because line 271 materialises it with
`.fillna("Unknown")`. -/
theorem c8_funding_stage_label (data : Bundle) (m : List MasterRow)
    (hok : prepare_master_table data = Except.ok m) :
    ∀ r ∈ m, r.funding_stage_label ∈
      ["Pre-Seed / Angel", "Seed", "Series A", "Series B", "Post-IPO",
        "Unknown"] := by
  intro r hrm
  obtain ⟨h, hh, rfl⟩ := (mem_of_prepare hok).mp hrm
  show mapStageLabel _ ∈ stageLabels ++ ["Unknown"]
  rcases mapStageLabel_mem ((data.scores.find?
      (fun s => s.company_id == h.company_id)).bind (fun s => s.funding_stage)) with hmem | hmem
  · exact List.mem_append.mpr (Or.inl hmem)
  · rw [hmem]
    exact List.mem_append.mpr (Or.inr (by simp))

theorem c8_funding_stage_label_witness :
    prepare_master_table exBundle = Except.ok exMaster ∧
    ∀ r ∈ exMaster, r.funding_stage_label ∈
      ["Pre-Seed / Angel", "Seed", "Series A", "Series B", "Post-IPO",
        "Unknown"] :=
  ⟨rfl, c8_funding_stage_label exBundle exMaster rfl⟩

/-! ## Literal regex patterns are substring containment -/

theorem reMatchAt_eq_isPrefixBy {p : List Char} (hp : '.' ∉ p) (s : List Char) :
    reMatchAt p s = isPrefixBy (fun a b => a.toLower == b.toLower) p s := by
  induction p generalizing s with
  | nil => cases s <;> rfl
  | cons c cs ih =>
    cases s with
    | nil => rfl
    | cons x xs =>
      have hc : (c == '.') = false := by
        rw [beq_eq_false_iff_ne]
        exact fun h => hp (h ▸ List.mem_cons_self c cs)
      have hcs : '.' ∉ cs := fun h => hp (List.mem_cons_of_mem _ h)
      simp [reMatchAt, isPrefixBy, hc, ih hcs]

theorem reSearch_eq_hasSubBy {p : List Char} (hp : '.' ∉ p) (s : List Char) :
    reSearch p s = hasSubBy (fun a b => a.toLower == b.toLower) p s := by
  induction s with
  | nil => simpa [reSearch, hasSubBy] using reMatchAt_eq_isPrefixBy hp []
  | cons b t ih => simp [reSearch, hasSubBy, reMatchAt_eq_isPrefixBy hp, ih]

/-- On a pattern free of the `.` wildcard, the `str.contains` model is plain
case-insensitive substring containment. -/
theorem pyStrContainsCI_eq_substrCI {pattern text : String}
    (hp : '.' ∉ pattern.toList) :
    pyStrContainsCI pattern text = substrCI pattern text :=
  reSearch_eq_hasSubBy hp text.toList

theorem applyFilters_search_only (df : List MasterRow) {search : String}
    (h : search ≠ "") :
    apply_filters df 0 [] [] [] search = df.filter (searchKeep search) := by
  have hse : search.isEmpty = false := by
    rw [Bool.eq_false_iff]
    intro hs
    exact h ((String.isEmpty_iff search).mp hs)
  simp [apply_filters, hse]

/-- A master row with name "Acme" (and no momentum data). -/
def acmeRow : MasterRow :=
  { company_id := "c1", name := some "Acme", hiring_score := some 80,
    hiring_tier := some "High", hiring_rank := some 1,
    momentum_score := none, momentum_tier := none, momentum_rank := none,
    funding_stage := none, funding_stage_label := "Unknown",
    total_funding_usd := none, total_funding_display := "N/A",
    primary_industry := none, has_job_postings := none }

/-- A master row with name "ACME Corp". -/
def acmeCorpRow : MasterRow :=
  { company_id := "c2", name := some "ACME Corp", hiring_score := some 60,
    hiring_tier := some "Moderate", hiring_rank := some 2,
    momentum_score := none, momentum_tier := none, momentum_rank := none,
    funding_stage := none, funding_stage_label := "Unknown",
    total_funding_usd := none, total_funding_display := "N/A",
    primary_industry := none, has_job_postings := none }

/-! ## Claims -/

/-- C5 counterexample: the code passes the search string to
`Series.str.contains`, whose default is `regex=True`, so the pattern "." (a
regex wildcard) keeps a row named "Acme" even though "." is not a
case-insensitive substring of "Acme".  The claim that `apply_filters` keeps
exactly the rows whose name contains the search string as a substring is
therefore false at this input. -/
theorem c5_counterexample :
    acmeRow.name = some "Acme" ∧
    substrCI "." "Acme" = false ∧
    apply_filters [acmeRow] 0 [] [] [] "." = [acmeRow] :=
  ⟨rfl, rfl, rfl⟩

/-- C5 (amended): for a non-empty search string free of regex
metacharacters, `apply_filters` keeps exactly the rows whose name contains
the search string as a case-insensitive substring, and a row whose name is
null never matches a non-empty search. -/
theorem c5_search_substring (df : List MasterRow) (search : String)
    (hne : search ≠ "") (hlit : ∀ c ∈ search.toList, c ∉ regexMetaChars) :
    apply_filters df 0 [] [] [] search =
      df.filter (fun r => match r.name with
        | some n => substrCI search n
        | none => false) ∧
    ∀ r ∈ apply_filters df 0 [] [] [] search, r.name ≠ none := by
  have hdot : '.' ∉ search.toList := by
    intro h
    have := hlit '.' h
    simp [regexMetaChars] at this
  have heq := applyFilters_search_only df hne
  constructor
  · rw [heq]
    apply List.filter_congr
    intro r _
    cases hn : r.name with
    | none => simp [searchKeep, hn]
    | some n => simp [searchKeep, hn, pyStrContainsCI_eq_substrCI hdot]
  · rw [heq]
    intro r hr hnone
    have hk := (List.mem_filter.mp hr).2
    simp [searchKeep, hnone] at hk

theorem c5_search_substring_witness :
    ("acme" : String) ≠ "" ∧ (∀ c ∈ ("acme" : String).toList, c ∉ regexMetaChars) ∧
    (apply_filters [acmeCorpRow] 0 [] [] [] "acme" =
        [acmeCorpRow].filter (fun r => match r.name with
          | some n => substrCI "acme" n
          | none => false) ∧
      ∀ r ∈ apply_filters [acmeCorpRow] 0 [] [] [] "acme", r.name ≠ none) :=
  ⟨by decide, by decide,
    c5_search_substring [acmeCorpRow] "acme" (by decide) (by decide)⟩

/-- C6: with `min_score = 0`, empty tier/industry/stage selections and an
empty search string, every criterion is skipped and `apply_filters` returns
the master table unchanged in row order and content. -/
theorem c6_empty_filters_identity (df : List MasterRow) :
    apply_filters df 0 [] [] [] "" = df := by
  have hemp : "".isEmpty = true := rfl
  simp [apply_filters, hemp]

/-- C7: with `min_score = 50` and all other criteria empty, `apply_filters`
keeps exactly the rows whose `hiring_score` is at least 50; adding a
non-empty tier selection keeps exactly the rows that satisfy both the score
threshold and membership of `momentum_tier` in the selection. -/
theorem c7_score_and_tier_filters (df : List MasterRow) (tiers : List String)
    (ht : tiers ≠ []) :
    (∀ r, r ∈ apply_filters df 50 [] [] [] "" ↔
        r ∈ df ∧ ∃ s, r.hiring_score = some s ∧ (50 : ℚ) ≤ s) ∧
    (∀ r, r ∈ apply_filters df 50 tiers [] [] "" ↔
        r ∈ df ∧ (∃ s, r.hiring_score = some s ∧ (50 : ℚ) ≤ s) ∧
          ∃ t, r.momentum_tier = some t ∧ t ∈ tiers) := by
  have h50 : (0 : ℤ) < 50 := by norm_num
  constructor
  · intro r
    rw [applyFilters_score_only df h50, List.mem_filter, scoreKeep_iff]
    norm_num
  · intro r
    rw [applyFilters_score_tiers df h50 ht, List.mem_filter, List.mem_filter,
      scoreKeep_iff, tierKeep_iff]
    norm_num
    tauto

theorem c7_score_and_tier_filters_witness :
    (["High"] : List String) ≠ [] ∧
    ((∀ r, r ∈ apply_filters [acmeRow] 50 [] [] [] "" ↔
        r ∈ [acmeRow] ∧ ∃ s, r.hiring_score = some s ∧ (50 : ℚ) ≤ s) ∧
      (∀ r, r ∈ apply_filters [acmeRow] 50 ["High"] [] [] "" ↔
        r ∈ [acmeRow] ∧ (∃ s, r.hiring_score = some s ∧ (50 : ℚ) ≤ s) ∧
          ∃ t, r.momentum_tier = some t ∧ t ∈ ["High"])) :=
  ⟨by decide, c7_score_and_tier_filters [acmeRow] ["High"] (by decide)⟩

/-- C9: the Remote Reader resolves a prefix listing containing a `_SUCCESS`
sentinel and a `part-00000` data file to the data file (for both the CSV
and the Parquet reader), and falls back to the key itself when no listed
object has the expected extension outside an underscore segment. -/
theorem c9_remote_reader_resolution (key : String) (listing : List String)
    (hnone : ∀ k ∈ listing,
      ¬(strEndsWith k ".csv" = true ∧ strContainsSub k "/_" = false)) :
    csv_target_key "modeling/out"
        ["modeling/out/_SUCCESS", "modeling/out/part-00000.csv"] =
      "modeling/out/part-00000.csv" ∧
    parquet_target_key "cleaned/spine_cleaned.parquet"
        ["cleaned/spine_cleaned.parquet/_SUCCESS",
          "cleaned/spine_cleaned.parquet/part-00000.parquet"] =
      "cleaned/spine_cleaned.parquet/part-00000.parquet" ∧
    csv_target_key key listing = key := by
  refine ⟨rfl, rfl, ?_⟩
  have hnil :
      listing.filter (fun k => strEndsWith k ".csv" && !(strContainsSub k "/_")) = [] := by
    rw [List.filter_eq_nil_iff]
    intro k hk hcontra
    rw [Bool.and_eq_true_iff, Bool.not_eq_true'] at hcontra
    exact hnone k hk hcontra
  simp only [csv_target_key, resolve_data_key, hnil]

theorem c9_remote_reader_resolution_witness :
    (∀ k ∈ ["modeling/company_scores.csv/_SUCCESS"],
      ¬(strEndsWith k ".csv" = true ∧ strContainsSub k "/_" = false)) ∧
    csv_target_key "modeling/company_scores.csv"
        ["modeling/company_scores.csv/_SUCCESS"] = "modeling/company_scores.csv" :=
  ⟨by decide,
    (c9_remote_reader_resolution "modeling/company_scores.csv"
      ["modeling/company_scores.csv/_SUCCESS"] (by decide)).2.2⟩

/-- C10 (implicit): with a non-empty tier selection every row whose
`momentum_tier` is null fails the `isin` test and is excluded, whatever the
selection contains; and a company present in Hiring but absent from Scores
has a null `momentum_tier` in the master table, hence is filtered out under
any non-empty tier selection. -/
theorem c10_null_tier_excluded (df : List MasterRow) (ms : ℤ)
    (tiers inds stgs : List String) (srch : String)
    (data : Bundle) (m : List MasterRow) (htiers : tiers ≠ []) :
    (∀ r ∈ apply_filters df ms tiers inds stgs srch, r.momentum_tier ≠ none) ∧
    (prepare_master_table data = Except.ok m →
      ∀ r ∈ m, (∀ s ∈ data.scores, s.company_id ≠ r.company_id) →
        r.momentum_tier = none ∧ r ∉ apply_filters m ms tiers inds stgs srch) := by
  constructor
  · intro r hr hnone
    have htk := tierKeep_of_mem_apply_filters htiers hr
    simp [tierKeep, hnone] at htk
  · intro hok r hrm hs
    obtain ⟨h, hh, rfl⟩ := (mem_of_prepare hok).mp hrm
    have hfind :
        data.scores.find? (fun s => s.company_id == h.company_id) = none := by
      rw [List.find?_eq_none]
      intro s hsmem
      simp only [beq_iff_eq]
      exact hs s hsmem
    have hmt : (buildMasterRow data h).momentum_tier = none := by
      simp [buildMasterRow, hfind]
    refine ⟨hmt, fun hin => ?_⟩
    have htk := tierKeep_of_mem_apply_filters htiers hin
    simp [tierKeep, hmt] at htk

theorem c10_null_tier_excluded_witness :
    (["Very High", "High", "Moderate", "Low", "Very Low"] : List String) ≠ [] ∧
    ((∀ r ∈ apply_filters [acmeRow] 0
          ["Very High", "High", "Moderate", "Low", "Very Low"] [] [] "",
        r.momentum_tier ≠ none) ∧
      (prepare_master_table exBundle = Except.ok exMaster →
        ∀ r ∈ exMaster, (∀ s ∈ exBundle.scores, s.company_id ≠ r.company_id) →
          r.momentum_tier = none ∧
            r ∉ apply_filters exMaster 0
              ["Very High", "High", "Moderate", "Low", "Very Low"] [] [] "")) :=
  ⟨by decide,
    c10_null_tier_excluded [acmeRow] 0
      ["Very High", "High", "Moderate", "Low", "Very Low"] [] [] ""
      exBundle exMaster (by decide)⟩

/-! ## Facts about string concatenation and round-half-even -/

theorem string_empty_append (s : String) : "" ++ s = s := by
  cases s
  rfl

theorem string_append_assoc (a b c : String) : a ++ b ++ c = a ++ (b ++ c) := by
  cases a with
  | mk x =>
    cases b with
    | mk y =>
      cases c with
      | mk z => exact congrArg String.mk (List.append_assoc x y z)

theorem roundHalfEven_nonneg {q : ℚ} (hq : 0 ≤ q) : 0 ≤ roundHalfEven q := by
  have hf : (0 : ℤ) ≤ ⌊q⌋ := Int.floor_nonneg.mpr hq
  simp only [roundHalfEven]
  split
  · exact hf
  · split
    · omega
    · split
      · exact hf
      · omega

/-- Round-half-even lands within half a unit of its argument. -/
theorem abs_sub_roundHalfEven_le (q : ℚ) : |q - (roundHalfEven q : ℚ)| ≤ 1 / 2 := by
  have h1 : (⌊q⌋ : ℚ) ≤ q := Int.floor_le q
  have h2 : q < ⌊q⌋ + 1 := Int.lt_floor_add_one q
  simp only [roundHalfEven]
  split
  case isTrue hlt =>
    rw [abs_le]
    constructor <;> linarith
  case isFalse hge =>
    split
    case isTrue hgt =>
      rw [abs_le]
      push_cast
      constructor <;> linarith
    case isFalse hle =>
      have heq : q - (⌊q⌋ : ℚ) = 1 / 2 :=
        le_antisymm (not_lt.mp hle) (not_lt.mp hge)
      split
      · rw [abs_le]
        constructor <;> linarith
      · rw [abs_le]
        push_cast
        constructor <;> linarith

theorem roundHalfEven_three_halves : roundHalfEven (3 / 2 : ℚ) = 2 := by
  have hf : ⌊(3 / 2 : ℚ)⌋ = 1 := by
    rw [Int.floor_eq_iff]
    norm_num
  simp only [roundHalfEven, hf]
  norm_num

theorem roundHalfEven_of_int (z : ℤ) : roundHalfEven (z : ℚ) = z := by
  have hf : ⌊(z : ℚ)⌋ = z := Int.floor_intCast z
  simp only [roundHalfEven, hf]
  norm_num

theorem roundHalfEven_boundary : roundHalfEven (1999999 / 2000 : ℚ) = 1000 := by
  have hf : ⌊(1999999 / 2000 : ℚ)⌋ = 999 := by
    rw [Int.floor_eq_iff]
    norm_num
  simp only [roundHalfEven, hf]
  norm_num

theorem format_usd_at_zero : format_usd (some 0) = "$0" := by
  have h1 : ¬((1000000 : ℚ) ≤ 0) := by norm_num
  have h2 : ¬((1000 : ℚ) ≤ 0) := by norm_num
  have h3 : ¬((0 : ℚ) < 0) := by norm_num
  have habs : |(0 : ℚ)| = ((0 : ℤ) : ℚ) := by norm_num
  simp only [format_usd, if_neg h1, if_neg h2, pyFmtComma0, if_neg h3, habs,
    roundHalfEven_of_int, string_empty_append]
  rfl

theorem format_usd_at_1500 : format_usd (some 1500) = "$2K" := by
  have h1 : ¬((1000000 : ℚ) ≤ 1500) := by norm_num
  have h2 : (1000 : ℚ) ≤ 1500 := by norm_num
  have h3 : ¬((1500 : ℚ) / 1000 < 0) := by norm_num
  have habs : |(1500 : ℚ) / 1000| = 3 / 2 := by
    rw [abs_of_nonneg] <;> norm_num
  simp only [format_usd, if_neg h1, if_pos h2, pyFmt0, if_neg h3, habs,
    roundHalfEven_three_halves, string_empty_append]
  rfl

theorem format_usd_at_2300000 : format_usd (some 2300000) = "$2.3M" := by
  have h1 : (1000000 : ℚ) ≤ 2300000 := by norm_num
  have h3 : ¬((2300000 : ℚ) / 1000000 < 0) := by norm_num
  have habs : |(2300000 : ℚ) / 1000000| * 10 = (23 : ℤ) := by
    rw [abs_of_nonneg] <;> norm_num
  simp only [format_usd, if_pos h1, pyFmt1, if_neg h3, habs,
    roundHalfEven_of_int, string_empty_append]
  rfl

theorem format_usd_at_999999_5 : format_usd (some (999999.5 : ℚ)) = "$1000K" := by
  have h1 : ¬((1000000 : ℚ) ≤ 999999.5) := by norm_num
  have h2 : (1000 : ℚ) ≤ 999999.5 := by norm_num
  have h3 : ¬((999999.5 : ℚ) / 1000 < 0) := by norm_num
  have habs : |(999999.5 : ℚ) / 1000| = 1999999 / 2000 := by
    rw [abs_of_nonneg] <;> norm_num
  simp only [format_usd, if_neg h1, if_pos h2, pyFmt0, if_neg h3, habs,
    roundHalfEven_boundary, string_empty_append]
  rfl

/-- C4: `format_usd` maps null/NaN to "N/A", 0 to "$0", 1500 to "$2K" and
2,300,000 to "$2.3M"; in general it renders values at least a million as
"$N.NM" with one decimal digit (within 1/20 million of the exact quotient),
values at least a thousand as "$NK" with `N` within half a thousand of the
exact quotient, and smaller non-negative values as a comma-grouped rounded
integer; the boundary input 999,999.5 falls in the "K" branch and renders
as "$1000K". -/
theorem c4_format_usd (v : ℚ) :
    format_usd none = "N/A" ∧
    format_usd (some 0) = "$0" ∧
    format_usd (some 1500) = "$2K" ∧
    format_usd (some 2300000) = "$2.3M" ∧
    format_usd (some (999999.5 : ℚ)) = "$1000K" ∧
    (1000000 ≤ v →
      ∃ n : ℕ, format_usd (some v) =
          "$" ++ toString (n / 10) ++ "." ++ toString (n % 10) ++ "M" ∧
        |v / 1000000 - (n : ℚ) / 10| ≤ 1 / 20) ∧
    (1000 ≤ v → v < 1000000 →
      ∃ n : ℕ, format_usd (some v) = "$" ++ toString n ++ "K" ∧
        |v / 1000 - (n : ℚ)| ≤ 1 / 2) ∧
    (0 ≤ v → v < 1000 →
      ∃ n : ℕ, format_usd (some v) = "$" ++ commaGroup n ∧
        |v - (n : ℚ)| ≤ 1 / 2) := by
  refine ⟨rfl, format_usd_at_zero, format_usd_at_1500, format_usd_at_2300000,
    format_usd_at_999999_5, ?_, ?_, ?_⟩
  · intro hv
    have hq0 : (0 : ℚ) ≤ v / 1000000 := div_nonneg (by linarith) (by norm_num)
    have habs : |v / 1000000| = v / 1000000 := abs_of_nonneg hq0
    have hnn : (0 : ℤ) ≤ roundHalfEven (v / 1000000 * 10) :=
      roundHalfEven_nonneg (by positivity)
    refine ⟨(roundHalfEven (v / 1000000 * 10)).toNat, ?_, ?_⟩
    · have h3 : ¬(v / 1000000 < 0) := not_lt.mpr hq0
      simp only [format_usd, if_pos hv, pyFmt1, if_neg h3, habs,
        string_empty_append, string_append_assoc]
    · have hcast : (((roundHalfEven (v / 1000000 * 10)).toNat : ℕ) : ℚ)
          = ((roundHalfEven (v / 1000000 * 10) : ℤ) : ℚ) := by
        exact_mod_cast congrArg (fun z : ℤ => (z : ℚ)) (Int.toNat_of_nonneg hnn)
      rw [hcast]
      have hb := abs_sub_roundHalfEven_le (v / 1000000 * 10)
      rw [abs_le] at hb ⊢
      constructor <;> linarith [hb.1, hb.2]
  · intro hv hlt
    have hq0 : (0 : ℚ) ≤ v / 1000 := div_nonneg (by linarith) (by norm_num)
    have habs : |v / 1000| = v / 1000 := abs_of_nonneg hq0
    have hnn : (0 : ℤ) ≤ roundHalfEven (v / 1000) := roundHalfEven_nonneg hq0
    refine ⟨(roundHalfEven (v / 1000)).toNat, ?_, ?_⟩
    · have h1 : ¬(1000000 ≤ v) := not_le.mpr hlt
      have h3 : ¬(v / 1000 < 0) := not_lt.mpr hq0
      simp only [format_usd, if_neg h1, if_pos hv, pyFmt0, if_neg h3, habs,
        string_empty_append, string_append_assoc]
    · have hcast : (((roundHalfEven (v / 1000)).toNat : ℕ) : ℚ)
          = ((roundHalfEven (v / 1000) : ℤ) : ℚ) := by
        exact_mod_cast congrArg (fun z : ℤ => (z : ℚ)) (Int.toNat_of_nonneg hnn)
      rw [hcast]
      have hb := abs_sub_roundHalfEven_le (v / 1000)
      rw [abs_le] at hb ⊢
      constructor <;> linarith [hb.1, hb.2]
  · intro hv hlt
    have habs : |v| = v := abs_of_nonneg hv
    have hnn : (0 : ℤ) ≤ roundHalfEven v := roundHalfEven_nonneg hv
    refine ⟨(roundHalfEven v).toNat, ?_, ?_⟩
    · have h1 : ¬(1000000 ≤ v) := not_le.mpr (by linarith)
      have h2 : ¬(1000 ≤ v) := not_le.mpr hlt
      have h3 : ¬(v < 0) := not_lt.mpr hv
      simp only [format_usd, if_neg h1, if_neg h2, pyFmtComma0, if_neg h3, habs,
        string_empty_append]
    · have hcast : (((roundHalfEven v).toNat : ℕ) : ℚ)
          = ((roundHalfEven v : ℤ) : ℚ) := by
        exact_mod_cast congrArg (fun z : ℤ => (z : ℚ)) (Int.toNat_of_nonneg hnn)
      rw [hcast]
      have hb := abs_sub_roundHalfEven_le v
      rw [abs_le] at hb ⊢
      constructor <;> linarith [hb.1, hb.2]

theorem c4_format_usd_witness :
    (1000000 : ℚ) ≤ 2500000 ∧
    ∃ n : ℕ, format_usd (some 2500000) =
        "$" ++ toString (n / 10) ++ "." ++ toString (n % 10) ++ "M" ∧
      |(2500000 : ℚ) / 1000000 - (n : ℚ) / 10| ≤ 1 / 20 :=
  ⟨by norm_num, (c4_format_usd 2500000).2.2.2.2.2.1 (by norm_num)⟩

end LaunchpadScout
